import Mathlib

/-!
Shallow embedding of the reactor/scheduler in `src/asyncio/async_echo_server.py`
and its sibling implementation in `src/asyncio/generator_async.py`.

Conventions of the embedding:
* a raw socket handle is modelled by its file descriptor (`RawSock`);
* the outside world (the OS) is an oracle `World` assigning to each syscall
  its outcome; a syscall that raises is an `Except.error` outcome;
* a Python generator (a task) is modelled denotationally as a well-founded
  tree `Gen`: `ret v` is `return v` (i.e. `StopIteration(v)` on the next
  `send`), `yield y k` yields the value `y` and continues as `k r` when the
  generator is resumed with `send(r)`, and `spawn t rest` is a call to
  `scheduler.submit_task(t)` performed between two suspension points;
* `task.send(data)` is modelled by `collect (t data)`: it runs the tree from
  the resumption point, gathering the tasks submitted on the way, until the
  next `yield` or `return`;
* the blocking `select.select` consumes one entry of a readiness schedule
  (a list of `(rset, wset)` pairs); calling it with both interest tables
  empty blocks forever, which the model records as `RunResult.blockedForever`;
* the drain loop `_run` takes fuel because a task may submit new tasks while
  being drained; `Except.ok none` means the fuel ran out mid-drain.
-/

namespace AsyncEcho

/-- A raw OS socket handle, identified by its file descriptor
(`sock.fileno()` in the source). -/
structure RawSock where
  fd : Nat
deriving DecidableEq, Repr

/-- The socket operations that the `Socket` facade does NOT intercept:
`__getattr__` forwards them unchanged to the wrapped raw handle. -/
inductive SockOp where
  | bind (addr : Nat × Nat)
  | listen (backlog : Nat)
  | close
  | getpeername
  | setsockopt (level : Nat) (opt : Nat) (value : Bool)
  | fileno
deriving DecidableEq, Repr

/-- Oracle for the OS: outcome of each deferred syscall performed by an
Event's completion step, and of each forwarded socket operation.
An `Except.error` outcome models the syscall raising an `OSError`
(the error payload is an error code). -/
structure World where
  acceptR : Nat → Except Nat (RawSock × Nat)
  recvR : Nat → Nat → Except Nat (List Nat)
  sendR : Nat → List Nat → Except Nat Nat
  opR : Nat → SockOp → Nat

/-- A value with which a task is resumed: `none` is Python's `None` used to
prime a fresh generator; the other three are the completion results of the
three Event kinds. -/
inductive IOResult where
  | none
  | acceptRes (conn : RawSock) (addr : Nat)
  | recvRes (data : List Nat)
  | sendRes (n : Nat)
deriving DecidableEq, Repr

/-- The Event hierarchy of `async_echo_server.py`: `ConnectEvent(sock)`,
`ReceiveEvent(sock, nbytes)`, `SendEvent(sock, data)`.  The classes
`AcceptSocket`, `ReadSocket`, `WriteSocket` of `generator_async.py` carry
exactly the same payloads and are modelled by the same three constructors. -/
inductive BaseEvent where
  | connectEvent (sock : RawSock)
  | receiveEvent (sock : RawSock) (nbytes : Nat)
  | sendEvent (sock : RawSock) (data : List Nat)
deriving DecidableEq, Repr

/-- A value yielded by a task: either a `BaseEvent`, or anything else
(`other`), which the scheduler rejects with a `RuntimeError`. -/
inductive Yielded where
  | event (e : BaseEvent)
  | other (v : Nat)
deriving DecidableEq, Repr

/-- Denotation of a Python generator body (a task's remaining computation).
`spawn t rest` records a `scheduler.submit_task(t)` call executed between two
suspension points, as `echo_server` does after every accepted connection. -/
inductive Gen where
  | ret (v : IOResult)
  | yield (y : Yielded) (k : IOResult → Gen)
  | spawn (t : Gen) (rest : Gen)

/-- A suspended task: feeding it its resumption value gives the rest of its
computation.  A freshly created generator ignores the priming `None`. -/
def Task := IOResult → Gen

/-- Outcome of one `task.send(data)` call: either the generator raised
`StopIteration(v)`, or it yielded a value and is now suspended at `k`. -/
inductive SendOut where
  | stopped (v : IOResult)
  | yielded (y : Yielded) (k : IOResult → Gen)

/-- Run a generator from a resumption point to its next suspension point:
returns the tasks it submitted on the way (in program order) and the
`send` outcome. -/
def collect : Gen → List Gen × SendOut
  | .ret v => ([], .stopped v)
  | .yield y k => ([], .yielded y k)
  | .spawn t rest =>
    let p := collect rest
    (t :: p.1, p.2)

/-- Python's `yield from sub` as used by `client_handler`: every value `sub`
yields is yielded outward, every value sent to the outer generator is
forwarded to `sub`, tasks `sub` submits are submitted, and when `sub`
returns `v` the outer computation continues as `k v`. -/
def yieldFrom (sub : Gen) (k : IOResult → Gen) : Gen :=
  match sub with
  | .ret v => k v
  | .yield y sk => .yield y (fun r => yieldFrom (sk r) k)
  | .spawn t rest => .spawn t (yieldFrom rest k)

/-- The scheduler-side observation of a generator under a list of resumption
values: the sequence of yielded values, and — when the generator returns
within the supplied resumptions — its `StopIteration` value together with
the unconsumed resumptions. -/
def traceGen : Gen → List IOResult → List Yielded × Option (IOResult × List IOResult)
  | .ret v, vs => ([], some (v, vs))
  | .spawn _ rest, vs => traceGen rest vs
  | .yield y _, [] => ([y], none)
  | .yield y k, v :: vs =>
    let p := traceGen (k v) vs
    (y :: p.1, p.2)

/-- The `Socket` facade of `async_echo_server.py`: wraps a raw handle. -/
structure Socket where
  sock : RawSock
deriving DecidableEq, Repr

/-- A raw handle performing a non-intercepted operation: the outcome is
whatever the OS oracle assigns to this descriptor and operation. -/
def RawSock.callOp (w : World) (r : RawSock) (op : SockOp) : Nat :=
  w.opR r.fd op

/-- `Socket.__getattr__`: any attribute other than accept/recv/send is
looked up on the wrapped raw handle, so calling it behaves exactly as
calling it on the raw handle. -/
def Socket.callOp (w : World) (s : Socket) (op : SockOp) : Nat :=
  RawSock.callOp w s.sock op

/-- `Socket.accept`: returns `ConnectEvent(self.sock)` instead of performing
the syscall (note: no `World` argument — the model cannot perform a syscall
without one). -/
def Socket.accept (s : Socket) : BaseEvent :=
  .connectEvent s.sock

/-- `Socket.recv`: returns `ReceiveEvent(self.sock, nbytes)`. -/
def Socket.recv (s : Socket) (nbytes : Nat) : BaseEvent :=
  .receiveEvent s.sock nbytes

/-- `Socket.send`: returns `SendEvent(self.sock, data)`. -/
def Socket.send (s : Socket) (data : List Nat) : BaseEvent :=
  .sendEvent s.sock data

/-- An interest table: a Python `dict` mapping a file descriptor to the
`(event, task)` pair waiting on it, modelled as an insertion-ordered
association list. -/
def Table := List (Nat × (BaseEvent × Task))

/-- `d[k] = v` on a Python dict: replaces the value in place when the key is
present, appends the binding otherwise. -/
def dictSet : Table → Nat → BaseEvent × Task → Table
  | [], k, v => [(k, v)]
  | (k', v') :: rest, k, v =>
    if k' = k then (k, v) :: rest else (k', v') :: dictSet rest k v

/-- `k in d` / `d[k]` lookup on a Python dict. -/
def dictLookup : Table → Nat → Option (BaseEvent × Task)
  | [], _ => none
  | (k', v') :: rest, k => if k' = k then some v' else dictLookup rest k

/-- `d.pop(k)`: the value at `k` together with the dict without `k`, or
`none` when the key is missing (a `KeyError`). -/
def dictPop : Table → Nat → Option ((BaseEvent × Task) × Table)
  | [], _ => none
  | (k', v') :: rest, k =>
    if k' = k then some (v', rest)
    else
      match dictPop rest k with
      | none => none
      | some (v, t) => some (v, (k', v') :: t)

/-- The keys of an interest table, in insertion order. -/
def tableKeys (d : Table) : List Nat := d.map Prod.fst

/-- The scheduler state of `async_echo_server.py`.  The fields `nsubmitted`
and `ncompleted` are instrumentation counters (the total number of
`submit_task` calls and of tasks retired on `StopIteration`), present only
so that the task-count invariant can be stated; no operation reads them. -/
structure Sched where
  nrunning : Int
  readyq : List (Task × IOResult)
  read_waiting : Table
  write_waiting : Table
  nsubmitted : Int
  ncompleted : Int

/-- `Scheduler.__init__`. -/
def initSched : Sched :=
  { nrunning := 0, readyq := [], read_waiting := [], write_waiting := []
    nsubmitted := 0, ncompleted := 0 }

/-- `Scheduler.submit_task(task)`: append `(task, None)` to the ready queue
and increment the running-task count. -/
def submit_task (s : Sched) (t : Task) : Sched :=
  { s with readyq := s.readyq ++ [(t, .none)]
           nrunning := s.nrunning + 1
           nsubmitted := s.nsubmitted + 1 }

/-- `Scheduler.add_ready(task, data)`. -/
def add_ready (s : Sched) (t : Task) (data : IOResult) : Sched :=
  { s with readyq := s.readyq ++ [(t, data)] }

/-- `Scheduler.waiting_for_read(fileno, event, task)`. -/
def waiting_for_read (s : Sched) (fileno : Nat) (e : BaseEvent) (t : Task) : Sched :=
  { s with read_waiting := dictSet s.read_waiting fileno (e, t) }

/-- `Scheduler.waiting_for_write(fileno, event, task)`. -/
def waiting_for_write (s : Sched) (fileno : Nat) (e : BaseEvent) (t : Task) : Sched :=
  { s with write_waiting := dictSet s.write_waiting fileno (e, t) }

/-- `event.do_schedule(scheduler, task)`: `ConnectEvent` and `ReceiveEvent`
register on the read table, `SendEvent` on the write table, each keyed by
`self.sock.fileno()`. -/
def do_schedule (e : BaseEvent) (s : Sched) (t : Task) : Sched :=
  match e with
  | .connectEvent r => waiting_for_read s r.fd e t
  | .receiveEvent r _ => waiting_for_read s r.fd e t
  | .sendEvent r _ => waiting_for_write s r.fd e t

/-- `event.happen_so_smooth(scheduler, task)`: perform the deferred syscall
and re-enqueue the waiting task with its result; an `OSError` from the
syscall propagates (is not caught anywhere in the scheduler). -/
def happen_so_smooth (w : World) (e : BaseEvent) (s : Sched) (t : Task) :
    Except Nat Sched :=
  match e with
  | .connectEvent r =>
    match w.acceptR r.fd with
    | .ok ca => .ok (add_ready s t (.acceptRes ca.1 ca.2))
    | .error i => .error i
  | .receiveEvent r n =>
    match w.recvR r.fd n with
    | .ok data => .ok (add_ready s t (.recvRes data))
    | .error i => .error i
  | .sendEvent r d =>
    match w.sendR r.fd d with
    | .ok n => .ok (add_ready s t (.sendRes n))
    | .error i => .error i

/-- An exception that escapes `Scheduler.run`: the `RuntimeError` raised on
a non-Event yield, an `OSError` from a completion-step syscall, or a
`KeyError` from popping a descriptor absent from the interest table. -/
inductive RunError where
  | unknownEvent
  | ioError (i : Nat)
  | keyError
deriving DecidableEq, Repr

/-- Submit, in program order, the tasks a drained task spawned before its
suspension point (each spawned generator is fresh, so it ignores the
priming `None`). -/
def submitSpawned (s : Sched) (sp : List Gen) : Sched :=
  sp.foldl (fun a g => submit_task a (fun _ => g)) s

/-- One iteration of the `while self._readyq` drain loop body, after the
head of the queue has been popped: `task.send(data)` (which submits the
spawned tasks at their program points, all before the suspension point),
then dispatch on the outcome: `StopIteration` retires the task,
a `BaseEvent` is scheduled, anything else raises `RuntimeError`. -/
def drainStep (s : Sched) (t : Task) (data : IOResult) : Except RunError Sched :=
  let p := collect (t data)
  let s1 := submitSpawned s p.1
  match p.2 with
  | .stopped _ =>
    .ok { s1 with nrunning := s1.nrunning - 1, ncompleted := s1.ncompleted + 1 }
  | .yielded (.event e) k => .ok (do_schedule e s1 k)
  | .yielded (.other _) _ => .error .unknownEvent

/-- `Scheduler._run`: drain the ready queue until it is empty, including
entries appended while draining.  The fuel bounds the number of iterations
(a task may submit new tasks for ever); `Except.ok none` is fuel exhaustion
and never occurs in the Python source, which just keeps looping. -/
def _run (fuel : Nat) (s : Sched) : Except RunError (Option Sched) :=
  match s.readyq with
  | [] => .ok (some s)
  | (t, data) :: rest =>
    match fuel with
    | 0 => .ok none
    | f + 1 =>
      match drainStep { s with readyq := rest } t data with
      | .error e => .error e
      | .ok s' => _run f s'

/-- One readiness wake-up: the fds `select` reports ready for reading and
for writing. -/
def SelectOut := List Nat × List Nat

/-- The completion phase over one of the two ready lists: for each reported
descriptor, pop its entry from the corresponding table (`KeyError` when the
report is bogus) and run the event's completion step. -/
def completeFds (w : World) (isRead : Bool) (fds : List Nat) (s : Sched) :
    Except RunError Sched :=
  match fds with
  | [] => .ok s
  | fd :: rest =>
    let tbl := if isRead then s.read_waiting else s.write_waiting
    match dictPop tbl fd with
    | none => .error .keyError
    | some (et, tbl') =>
      let s' := if isRead then { s with read_waiting := tbl' }
                else { s with write_waiting := tbl' }
      match happen_so_smooth w et.1 s' et.2 with
      | .error i => .error (.ioError i)
      | .ok s'' => completeFds w isRead rest s''

/-- The `for i, fileno in enumerate(rset+wset)` loop: the first `len(rset)`
descriptors are popped from the read table, the remaining ones from the
write table, in report order. -/
def completePhase (w : World) (s : Sched) (sel : SelectOut) : Except RunError Sched :=
  match completeFds w true sel.1 s with
  | .error e => .error e
  | .ok s' => completeFds w false sel.2 s'

/-- How one call to `Scheduler.run` can end. -/
inductive RunResult where
  | finished (s : Sched)
  | error (e : RunError)
  | blockedForever (s : Sched)
  | pending (s : Sched)
  | fuelOut

/-- `Scheduler.run`, instrumented: the second component records, for every
time control reaches the blocking `select.select` call, the length of the
ready queue at that moment.  Each loop iteration: re-check
`while self._nrunning_tasks`, drain (`if self._readyq: self._run()` — the
unconditional `_run` is identical since `_run` is a no-op on an empty
queue), then `select`.  A `select` over two empty interest tables blocks
forever (`blockedForever`); when the readiness schedule is exhausted the
run is still blocked in `select` waiting for an fd (`pending`). -/
def runL (w : World) (fuel : Nat) : Sched → List SelectOut → RunResult × List Nat
  | s, selects =>
    if s.nrunning = 0 then (.finished s, [])
    else
      match _run fuel s with
      | .error e => (.error e, [])
      | .ok none => (.fuelOut, [])
      | .ok (some s1) =>
        if s1.read_waiting.isEmpty && s1.write_waiting.isEmpty then
          (.blockedForever s1, [s1.readyq.length])
        else
          match selects with
          | [] => (.pending s1, [s1.readyq.length])
          | sel :: rest =>
            match completePhase w s1 sel with
            | .error e => (.error e, [s1.readyq.length])
            | .ok s2 =>
              let p := runL w fuel s2 rest
              (p.1, s1.readyq.length :: p.2)

/-- `Scheduler.run` proper. -/
def run (w : World) (fuel : Nat) (s : Sched) (selects : List SelectOut) : RunResult :=
  (runL w fuel s selects).1

/-- The scheduler state when `run` has stopped in a state the model can
observe (returned, blocked forever, or still waiting for readiness);
an escaped exception discards the state. -/
def stateOf : RunResult → Option Sched
  | .finished s => some s
  | .blockedForever s => some s
  | .pending s => some s
  | _ => none

/-- The scheduler state of `generator_async.py` (`_ready`, `_read_wait`,
`_write_wait`, `_n_tasks`). -/
structure GSched where
  _ready : List (Task × IOResult)
  _read_wait : Table
  _write_wait : Table
  _n_tasks : Int

/-- `Scheduler.__init__` of `generator_async.py`. -/
def initGSched : GSched :=
  { _ready := [], _read_wait := [], _write_wait := [], _n_tasks := 0 }

/-- `Scheduler.new(task)`: append `(task, None)` and increment `_n_tasks`. -/
def GSched.new (s : GSched) (t : Task) : GSched :=
  { s with _ready := s._ready ++ [(t, .none)], _n_tasks := s._n_tasks + 1 }

/-- `Scheduler.add_ready(task, msg)` of `generator_async.py`. -/
def GSched.add_ready (s : GSched) (t : Task) (msg : IOResult) : GSched :=
  { s with _ready := s._ready ++ [(t, msg)] }

/-- `Scheduler.read_wait(fd, event, task)`. -/
def GSched.read_wait (s : GSched) (fd : Nat) (e : BaseEvent) (t : Task) : GSched :=
  { s with _read_wait := dictSet s._read_wait fd (e, t) }

/-- `Scheduler.write_wait(fd, event, task)`. -/
def GSched.write_wait (s : GSched) (fd : Nat) (e : BaseEvent) (t : Task) : GSched :=
  { s with _write_wait := dictSet s._write_wait fd (e, t) }

/-- `event.yield_handle(sched, task)`: `AcceptSocket` and `ReadSocket`
register via `read_wait`, `WriteSocket` via `write_wait`, keyed by
`self.sock.fileno()`. -/
def yield_handle (e : BaseEvent) (s : GSched) (t : Task) : GSched :=
  match e with
  | .connectEvent r => s.read_wait r.fd e t
  | .receiveEvent r _ => s.read_wait r.fd e t
  | .sendEvent r _ => s.write_wait r.fd e t

/-- `event.resume_yield(sched, task)`: perform the deferred syscall and
re-enqueue the task with the result. -/
def resume_yield (w : World) (e : BaseEvent) (s : GSched) (t : Task) :
    Except Nat GSched :=
  match e with
  | .connectEvent r =>
    match w.acceptR r.fd with
    | .ok ca => .ok (s.add_ready t (.acceptRes ca.1 ca.2))
    | .error i => .error i
  | .receiveEvent r n =>
    match w.recvR r.fd n with
    | .ok data => .ok (s.add_ready t (.recvRes data))
    | .error i => .error i
  | .sendEvent r d =>
    match w.sendR r.fd d with
    | .ok n => .ok (s.add_ready t (.sendRes n))
    | .error i => .error i

/-- The `generator_async.py` counterpart of `submitSpawned`, via
`Scheduler.new`. -/
def gSubmitSpawned (s : GSched) (sp : List Gen) : GSched :=
  sp.foldl (fun a g => GSched.new a (fun _ => g)) s

/-- One iteration of the `while self._ready` loop body of `_poll`, after the
head has been popped. -/
def pollStep (s : GSched) (t : Task) (msg : IOResult) : Except RunError GSched :=
  let p := collect (t msg)
  let s1 := gSubmitSpawned s p.1
  match p.2 with
  | .stopped _ => .ok { s1 with _n_tasks := s1._n_tasks - 1 }
  | .yielded (.event e) k => .ok (yield_handle e s1 k)
  | .yielded (.other _) _ => .error .unknownEvent

/-- `Scheduler._poll` of `generator_async.py`, fuelled like `_run`. -/
def _poll (fuel : Nat) (s : GSched) : Except RunError (Option GSched) :=
  match s._ready with
  | [] => .ok (some s)
  | (t, msg) :: rest =>
    match fuel with
    | 0 => .ok none
    | f + 1 =>
      match pollStep { s with _ready := rest } t msg with
      | .error e => .error e
      | .ok s' => _poll f s'

/-- The completion loop of `generator_async.py`'s `run` over one ready
list. -/
def gCompleteFds (w : World) (isRead : Bool) (fds : List Nat) (s : GSched) :
    Except RunError GSched :=
  match fds with
  | [] => .ok s
  | fd :: rest =>
    let tbl := if isRead then s._read_wait else s._write_wait
    match dictPop tbl fd with
    | none => .error .keyError
    | some (et, tbl') =>
      let s' := if isRead then { s with _read_wait := tbl' }
                else { s with _write_wait := tbl' }
      match resume_yield w et.1 s' et.2 with
      | .error i => .error (.ioError i)
      | .ok s'' => gCompleteFds w isRead rest s''

/-- The `for i, r in enumerate(rlist + wlist)` loop of `generator_async.py`. -/
def gCompletePhase (w : World) (s : GSched) (sel : SelectOut) :
    Except RunError GSched :=
  match gCompleteFds w true sel.1 s with
  | .error e => .error e
  | .ok s' => gCompleteFds w false sel.2 s'

/-- How one call to `generator_async.py`'s `Scheduler.run` can end. -/
inductive GRunResult where
  | finished (s : GSched)
  | error (e : RunError)
  | blockedForever (s : GSched)
  | pending (s : GSched)
  | fuelOut

/-- `Scheduler.run` of `generator_async.py`:
`while self._n_tasks: if self._ready: self._poll(); select; complete`. -/
def grun (w : World) (fuel : Nat) : GSched → List SelectOut → GRunResult
  | s, selects =>
    if s._n_tasks = 0 then .finished s
    else
      match _poll fuel s with
      | .error e => .error e
      | .ok none => .fuelOut
      | .ok (some s1) =>
        if s1._read_wait.isEmpty && s1._write_wait.isEmpty then
          .blockedForever s1
        else
          match selects with
          | [] => .pending s1
          | sel :: rest =>
            match gCompletePhase w s1 sel with
            | .error e => .error e
            | .ok s2 => grun w fuel s2 rest

/-- The correspondence between the two schedulers' states: same ready queue,
same interest tables, same task count (the instrumentation counters of
`Sched` have no counterpart). -/
def toG (s : Sched) : GSched :=
  { _ready := s.readyq, _read_wait := s.read_waiting
    _write_wait := s.write_waiting, _n_tasks := s.nrunning }

/-- The correspondence between the two schedulers' run outcomes. -/
def toGRes : RunResult → GRunResult
  | .finished s => .finished (toG s)
  | .error e => .error e
  | .blockedForever s => .blockedForever (toG s)
  | .pending s => .pending (toG s)
  | .fuelOut => .fuelOut

/-- The task-count invariant: `_nrunning_tasks` equals the number of
`submit_task` calls minus the number of tasks retired on `StopIteration`. -/
def CInv (s : Sched) : Prop :=
  s.nrunning = s.nsubmitted - s.ncompleted

/-- Each interest table has no duplicate file-descriptor keys. -/
def TablesNodup (s : Sched) : Prop :=
  (tableKeys s.read_waiting).Nodup ∧ (tableKeys s.write_waiting).Nodup

/-- A world in which every syscall raises (error code 0) and every
forwarded socket operation returns 0. -/
def w0 : World :=
  { acceptR := fun _ => .error 0, recvR := fun _ _ => .error 0
    sendR := fun _ _ => .error 0, opR := fun _ _ => 0 }

/-- A world in which every syscall succeeds: `accept` on fd `n` yields the
connection handle `n + 100` from address 7, `recv` reports an orderly peer
close (zero bytes), `send` accepts the whole buffer. -/
def wOk : World :=
  { acceptR := fun n => .ok (⟨n + 100⟩, 7), recvR := fun _ _ => .ok []
    sendR := fun _ d => .ok d.length, opR := fun _ _ => 0 }

/-- A task that completes as soon as it is primed. -/
def demoDone : Task := fun _ => .ret .none

/-- A task suspended waiting for one resumption, which it then returns. -/
def demoK : Task := fun r => .ret r

/-- A task whose first suspension point yields `ReceiveEvent(fd 3, 1)`. -/
def demoRecv : Task := fun _ => .yield (.event (.receiveEvent ⟨3⟩ 1)) demoK

/-- A task that yields the non-Event value 42. -/
def demoBad : Task := fun _ => .yield (.other 42) demoK

/-- A scheduler holding one just-submitted task that completes on priming. -/
def demoS1 : Sched := submit_task initSched demoDone

/-- The state after draining `demoS1`: no tasks left, both interest tables
empty. -/
def demoAfterC1 : Sched :=
  { nrunning := 0, readyq := [], read_waiting := [], write_waiting := []
    nsubmitted := 1, ncompleted := 1 }

/-- A scheduler with one task waiting in the read-interest table for fd 3,
no runnable task, and one live task. -/
def demoWait : Sched :=
  { nrunning := 1, readyq := [], read_waiting := [(3, (.receiveEvent ⟨3⟩ 1, demoK))]
    write_waiting := [], nsubmitted := 1, ncompleted := 0 }

/-- A scheduler about to drain a task that yields a non-Event value. -/
def demoSBad : Sched := submit_task initSched demoBad

/-- A sub-computation in `readline` style: one `recv(1)` suspension, then
it returns the received value. -/
def demoSub : Gen := .yield (.event (.receiveEvent ⟨5⟩ 1)) Gen.ret

theorem dictLookup_set_self (d : Table) (k : Nat) (v : BaseEvent × Task) :
    dictLookup (dictSet d k v) k = some v := by
  induction d with
  | nil => simp [dictSet, dictLookup]
  | cons hd tl ih =>
    by_cases h : hd.1 = k
    · simp [dictSet, h, dictLookup]
    · simpa [dictSet, h, dictLookup] using ih

theorem dictLookup_set_other (d : Table) (k k' : Nat) (v : BaseEvent × Task)
    (h : k' ≠ k) : dictLookup (dictSet d k v) k' = dictLookup d k' := by
  have hne : ¬(k = k') := fun hh => h hh.symm
  induction d with
  | nil => simp [dictSet, dictLookup, hne]
  | cons hd tl ih =>
    rcases hd with ⟨a, b⟩
    by_cases hk : a = k
    · subst hk
      simp [dictSet, dictLookup, hne]
    · by_cases hk' : a = k' <;> simp [dictSet, dictLookup, hk, hk', ih, h]

theorem dictSet_length (d : Table) (k : Nat) (v p : BaseEvent × Task)
    (h : dictLookup d k = some p) : (dictSet d k v).length = d.length := by
  induction d with
  | nil => simp [dictLookup] at h
  | cons hd tl ih =>
    by_cases hk : hd.1 = k
    · simp [dictSet, hk]
    · rw [dictLookup, if_neg hk] at h
      simp [dictSet, hk, ih h]

theorem tableKeys_dictSet (d : Table) (k : Nat) (v : BaseEvent × Task) :
    tableKeys (dictSet d k v) =
      if k ∈ tableKeys d then tableKeys d else tableKeys d ++ [k] := by
  induction d with
  | nil => simp [dictSet, tableKeys]
  | cons hd tl ih =>
    rcases hd with ⟨a, b⟩
    by_cases hk : a = k
    · subst hk
      simp [dictSet, tableKeys]
    · have h1 : ¬(k = a) := fun hh => hk hh.symm
      have hset : dictSet ((a, b) :: tl) k v = (a, b) :: dictSet tl k v := by
        simp [dictSet, hk]
      rw [hset]
      by_cases hm : k ∈ tableKeys tl
      · have hm' : k ∈ tableKeys ((a, b) :: tl) := List.mem_cons_of_mem a hm
        rw [if_pos hm']
        show a :: tableKeys (dictSet tl k v) = tableKeys ((a, b) :: tl)
        rw [ih, if_pos hm]
        rfl
      · have hm' : k ∉ tableKeys ((a, b) :: tl) := by
          intro hc
          rcases List.mem_cons.mp hc with h' | h'
          · exact h1 h'
          · exact hm h'
        rw [if_neg hm']
        show a :: tableKeys (dictSet tl k v) = tableKeys ((a, b) :: tl) ++ [k]
        rw [ih, if_neg hm]
        rfl

theorem nodup_dictSet (d : Table) (k : Nat) (v : BaseEvent × Task)
    (h : (tableKeys d).Nodup) : (tableKeys (dictSet d k v)).Nodup := by
  rw [tableKeys_dictSet]
  by_cases hm : k ∈ tableKeys d
  · simpa [hm] using h
  · simp [hm, List.nodup_append, h]

theorem tableKeys_dictPop (d : Table) (k : Nat) (p : BaseEvent × Task)
    (d' : Table) (h : dictPop d k = some (p, d')) :
    List.Sublist (tableKeys d') (tableKeys d) := by
  induction d generalizing p d' with
  | nil => simp [dictPop] at h
  | cons hd tl ih =>
    rcases hd with ⟨a, b⟩
    by_cases hk : a = k
    · rw [dictPop, if_pos hk] at h
      cases h
      exact List.sublist_cons_self a (tableKeys tl)
    · rw [dictPop, if_neg hk] at h
      cases hrec : dictPop tl k with
      | none => rw [hrec] at h; cases h
      | some q =>
        rcases q with ⟨q1, q2⟩
        rw [hrec] at h
        have hd' : d' = (a, b) :: q2 := by
          injection h with hh
          exact (congrArg Prod.snd hh).symm
        rw [hd']
        exact List.Sublist.cons₂ a (ih q1 q2 hrec)

theorem nodup_dictPop (d : Table) (k : Nat) (p : BaseEvent × Task)
    (d' : Table) (h : dictPop d k = some (p, d'))
    (hn : (tableKeys d).Nodup) : (tableKeys d').Nodup :=
  (tableKeys_dictPop d k p d' h).nodup hn

theorem dictPop_ne_nil (d : Table) (k : Nat) (q : (BaseEvent × Task) × Table)
    (h : dictPop d k = some q) : d ≠ [] := by
  intro hd
  subst hd
  simp [dictPop] at h

theorem submitSpawned_tables (s : Sched) (sp : List Gen) :
    (submitSpawned s sp).read_waiting = s.read_waiting ∧
    (submitSpawned s sp).write_waiting = s.write_waiting := by
  induction sp generalizing s with
  | nil => exact ⟨rfl, rfl⟩
  | cons g tl ih => exact ih (submit_task s (fun _ => g))

theorem submitSpawned_CInv (s : Sched) (sp : List Gen) (h : CInv s) :
    CInv (submitSpawned s sp) := by
  induction sp generalizing s with
  | nil => exact h
  | cons g tl ih =>
    apply ih
    simp only [CInv, submit_task] at h ⊢
    omega

theorem do_schedule_counters (e : BaseEvent) (s : Sched) (t : Task) :
    (do_schedule e s t).nrunning = s.nrunning ∧
    (do_schedule e s t).nsubmitted = s.nsubmitted ∧
    (do_schedule e s t).ncompleted = s.ncompleted := by
  cases e <;> exact ⟨rfl, rfl, rfl⟩

theorem do_schedule_nodup (e : BaseEvent) (s : Sched) (t : Task)
    (h : TablesNodup s) : TablesNodup (do_schedule e s t) := by
  rcases h with ⟨h1, h2⟩
  cases e with
  | connectEvent r => exact ⟨nodup_dictSet _ _ _ h1, h2⟩
  | receiveEvent r n => exact ⟨nodup_dictSet _ _ _ h1, h2⟩
  | sendEvent r d => exact ⟨h1, nodup_dictSet _ _ _ h2⟩

theorem drainStep_CInv (s : Sched) (t : Task) (data : IOResult) (s' : Sched)
    (hs : drainStep s t data = .ok s') (h : CInv s) : CInv s' := by
  simp only [drainStep] at hs
  rcases hcol : collect (t data) with ⟨sp, out⟩
  rw [hcol] at hs
  have h1 : CInv (submitSpawned s sp) := submitSpawned_CInv s sp h
  cases out with
  | stopped v =>
    simp only at hs
    cases hs
    simp only [CInv] at h1 ⊢
    omega
  | yielded y k =>
    cases y with
    | event e =>
      simp only at hs
      cases hs
      have hc := do_schedule_counters e (submitSpawned s sp) k
      simp only [CInv] at h1 ⊢
      omega
    | other v => simp at hs

theorem drainStep_nodup (s : Sched) (t : Task) (data : IOResult) (s' : Sched)
    (hs : drainStep s t data = .ok s') (h : TablesNodup s) : TablesNodup s' := by
  simp only [drainStep] at hs
  rcases hcol : collect (t data) with ⟨sp, out⟩
  rw [hcol] at hs
  have hts := submitSpawned_tables s sp
  have h1 : TablesNodup (submitSpawned s sp) := by
    rcases h with ⟨ha, hb⟩
    exact ⟨hts.1 ▸ ha, hts.2 ▸ hb⟩
  cases out with
  | stopped v =>
    simp only at hs
    cases hs
    exact h1
  | yielded y k =>
    cases y with
    | event e =>
      simp only at hs
      cases hs
      exact do_schedule_nodup e (submitSpawned s sp) k h1
    | other v => simp at hs

theorem _run_eq_nil (fuel : Nat) (s : Sched) (h : s.readyq = []) :
    _run fuel s = .ok (some s) := by
  rw [_run, h]

theorem _run_eq_zero (s : Sched) (t : Task) (d : IOResult)
    (rest : List (Task × IOResult)) (h : s.readyq = (t, d) :: rest) :
    _run 0 s = .ok none := by
  rw [_run, h]

theorem _run_eq_succ (f : Nat) (s : Sched) (t : Task) (d : IOResult)
    (rest : List (Task × IOResult)) (h : s.readyq = (t, d) :: rest) :
    _run (f + 1) s =
      match drainStep { s with readyq := rest } t d with
      | .error e => .error e
      | .ok s' => _run f s' := by
  rw [_run, h]

theorem _run_readyq (fuel : Nat) : ∀ s s' : Sched,
    _run fuel s = .ok (some s') → s'.readyq = [] := by
  induction fuel with
  | zero =>
    intro s s' h
    rcases hq : s.readyq with _ | ⟨⟨t, d⟩, rest⟩
    · rw [_run_eq_nil 0 s hq] at h; cases h; exact hq
    · rw [_run_eq_zero s t d rest hq] at h; simp at h
  | succ f ih =>
    intro s s' h
    rcases hq : s.readyq with _ | ⟨⟨t, d⟩, rest⟩
    · rw [_run_eq_nil (f + 1) s hq] at h; cases h; exact hq
    · rw [_run_eq_succ f s t d rest hq] at h
      rcases hd : drainStep { s with readyq := rest } t d with e | s1 <;> rw [hd] at h
      · simp at h
      · exact ih s1 s' h

theorem _run_CInv (fuel : Nat) : ∀ s s' : Sched,
    CInv s → _run fuel s = .ok (some s') → CInv s' := by
  induction fuel with
  | zero =>
    intro s s' hc h
    rcases hq : s.readyq with _ | ⟨⟨t, d⟩, rest⟩
    · rw [_run_eq_nil 0 s hq] at h; cases h; exact hc
    · rw [_run_eq_zero s t d rest hq] at h; simp at h
  | succ f ih =>
    intro s s' hc h
    rcases hq : s.readyq with _ | ⟨⟨t, d⟩, rest⟩
    · rw [_run_eq_nil (f + 1) s hq] at h; cases h; exact hc
    · rw [_run_eq_succ f s t d rest hq] at h
      rcases hd : drainStep { s with readyq := rest } t d with e | s1 <;> rw [hd] at h
      · simp at h
      · exact ih s1 s' (drainStep_CInv _ t d s1 hd hc) h

theorem _run_nodup (fuel : Nat) : ∀ s s' : Sched,
    TablesNodup s → _run fuel s = .ok (some s') → TablesNodup s' := by
  induction fuel with
  | zero =>
    intro s s' hc h
    rcases hq : s.readyq with _ | ⟨⟨t, d⟩, rest⟩
    · rw [_run_eq_nil 0 s hq] at h; cases h; exact hc
    · rw [_run_eq_zero s t d rest hq] at h; simp at h
  | succ f ih =>
    intro s s' hc h
    rcases hq : s.readyq with _ | ⟨⟨t, d⟩, rest⟩
    · rw [_run_eq_nil (f + 1) s hq] at h; cases h; exact hc
    · rw [_run_eq_succ f s t d rest hq] at h
      rcases hd : drainStep { s with readyq := rest } t d with e | s1 <;> rw [hd] at h
      · simp at h
      · exact ih s1 s' (drainStep_nodup _ t d s1 hd hc) h

theorem happen_counters (w : World) (e : BaseEvent) (s : Sched) (t : Task)
    (s' : Sched) (h : happen_so_smooth w e s t = .ok s') :
    s'.nrunning = s.nrunning ∧ s'.nsubmitted = s.nsubmitted ∧
    s'.ncompleted = s.ncompleted ∧ s'.read_waiting = s.read_waiting ∧
    s'.write_waiting = s.write_waiting := by
  cases e with
  | connectEvent r =>
    simp only [happen_so_smooth] at h
    rcases hw : w.acceptR r.fd with i | ca <;> rw [hw] at h
    · simp at h
    · cases h; exact ⟨rfl, rfl, rfl, rfl, rfl⟩
  | receiveEvent r n =>
    simp only [happen_so_smooth] at h
    rcases hw : w.recvR r.fd n with i | data <;> rw [hw] at h
    · simp at h
    · cases h; exact ⟨rfl, rfl, rfl, rfl, rfl⟩
  | sendEvent r d =>
    simp only [happen_so_smooth] at h
    rcases hw : w.sendR r.fd d with i | n <;> rw [hw] at h
    · simp at h
    · cases h; exact ⟨rfl, rfl, rfl, rfl, rfl⟩

theorem completeFds_counters (w : World) (isRead : Bool) :
    ∀ (fds : List Nat) (s s' : Sched),
    completeFds w isRead fds s = .ok s' →
    s'.nrunning = s.nrunning ∧ s'.nsubmitted = s.nsubmitted ∧
    s'.ncompleted = s.ncompleted := by
  intro fds
  induction fds with
  | nil =>
    intro s s' h
    rw [completeFds] at h
    cases h
    exact ⟨rfl, rfl, rfl⟩
  | cons fd rest ih =>
    intro s s' h
    rw [completeFds] at h
    rcases hp : dictPop (if isRead then s.read_waiting else s.write_waiting) fd
      with _ | ⟨et, tbl'⟩ <;> rw [hp] at h
    · simp at h
    · set s1 : Sched := if isRead then { s with read_waiting := tbl' }
        else { s with write_waiting := tbl' } with hs1
      rcases hh : happen_so_smooth w et.1 s1 et.2 with i | s2 <;>
        simp only [hs1] at h <;> rw [hh] at h
      · simp at h
      · have c2 := happen_counters w et.1 s1 et.2 s2 hh
        have c3 := ih s2 s' h
        have c1 : s1.nrunning = s.nrunning ∧ s1.nsubmitted = s.nsubmitted ∧
            s1.ncompleted = s.ncompleted := by
          rw [hs1]
          cases isRead <;> simp
        exact ⟨by rw [c3.1, c2.1, c1.1], by rw [c3.2.1, c2.2.1, c1.2.1],
               by rw [c3.2.2, c2.2.2.1, c1.2.2]⟩

theorem completeFds_nodup (w : World) (isRead : Bool) :
    ∀ (fds : List Nat) (s s' : Sched),
    TablesNodup s → completeFds w isRead fds s = .ok s' → TablesNodup s' := by
  intro fds
  induction fds with
  | nil =>
    intro s s' hn h
    rw [completeFds] at h
    cases h
    exact hn
  | cons fd rest ih =>
    intro s s' hn h
    rw [completeFds] at h
    rcases hp : dictPop (if isRead then s.read_waiting else s.write_waiting) fd
      with _ | ⟨et, tbl'⟩ <;> rw [hp] at h
    · simp at h
    · set s1 : Sched := if isRead then { s with read_waiting := tbl' }
        else { s with write_waiting := tbl' } with hs1
      rcases hh : happen_so_smooth w et.1 s1 et.2 with i | s2 <;>
        simp only [hs1] at h <;> rw [hh] at h
      · simp at h
      · have hn1 : TablesNodup s1 := by
          rcases hn with ⟨ha, hb⟩
          rw [hs1]
          cases isRead with
          | false =>
            simp only [if_neg Bool.false_ne_true] at hp ⊢
            exact ⟨ha, nodup_dictPop _ fd et tbl' hp hb⟩
          | true =>
            simp only [if_pos rfl] at hp ⊢
            exact ⟨nodup_dictPop _ fd et tbl' hp ha, hb⟩
        have c2 := happen_counters w et.1 s1 et.2 s2 hh
        have hn2 : TablesNodup s2 := by
          rcases hn1 with ⟨ha, hb⟩
          exact ⟨c2.2.2.2.1 ▸ ha, c2.2.2.2.2 ▸ hb⟩
        exact ih s2 s' hn2 h

theorem completePhase_counters (w : World) (s : Sched) (sel : SelectOut)
    (s' : Sched) (h : completePhase w s sel = .ok s') :
    s'.nrunning = s.nrunning ∧ s'.nsubmitted = s.nsubmitted ∧
    s'.ncompleted = s.ncompleted := by
  rw [completePhase] at h
  rcases h1 : completeFds w true sel.1 s with e | s1 <;> rw [h1] at h
  · simp at h
  · have ca := completeFds_counters w true sel.1 s s1 h1
    have cb := completeFds_counters w false sel.2 s1 s' h
    exact ⟨by rw [cb.1, ca.1], by rw [cb.2.1, ca.2.1], by rw [cb.2.2, ca.2.2]⟩

theorem runL_eq_done (w : World) (fuel : Nat) (s : Sched)
    (selects : List SelectOut) (h : s.nrunning = 0) :
    runL w fuel s selects = (.finished s, []) := by
  rw [runL, if_pos h]

theorem runL_eq_error (w : World) (fuel : Nat) (s : Sched)
    (selects : List SelectOut) (e : RunError) (h0 : ¬s.nrunning = 0)
    (hr : _run fuel s = .error e) :
    runL w fuel s selects = (.error e, []) := by
  rw [runL, if_neg h0, hr]

theorem runL_eq_fuelOut (w : World) (fuel : Nat) (s : Sched)
    (selects : List SelectOut) (h0 : ¬s.nrunning = 0)
    (hr : _run fuel s = .ok none) :
    runL w fuel s selects = (.fuelOut, []) := by
  rw [runL, if_neg h0, hr]

theorem runL_eq_blocked (w : World) (fuel : Nat) (s s1 : Sched)
    (selects : List SelectOut) (h0 : ¬s.nrunning = 0)
    (hr : _run fuel s = .ok (some s1))
    (he : (s1.read_waiting.isEmpty && s1.write_waiting.isEmpty) = true) :
    runL w fuel s selects = (.blockedForever s1, [s1.readyq.length]) := by
  rw [runL, if_neg h0, hr]
  simp only [he]
  cases selects <;> rfl

theorem runL_eq_pending (w : World) (fuel : Nat) (s s1 : Sched)
    (h0 : ¬s.nrunning = 0) (hr : _run fuel s = .ok (some s1))
    (he : (s1.read_waiting.isEmpty && s1.write_waiting.isEmpty) = false) :
    runL w fuel s [] = (.pending s1, [s1.readyq.length]) := by
  rw [runL, if_neg h0, hr]
  simp only [he]
  rfl

theorem runL_eq_cperr (w : World) (fuel : Nat) (s s1 : Sched)
    (sel : SelectOut) (rest : List SelectOut) (e : RunError)
    (h0 : ¬s.nrunning = 0) (hr : _run fuel s = .ok (some s1))
    (he : (s1.read_waiting.isEmpty && s1.write_waiting.isEmpty) = false)
    (hc : completePhase w s1 sel = .error e) :
    runL w fuel s (sel :: rest) = (.error e, [s1.readyq.length]) := by
  rw [runL, if_neg h0, hr]
  simp only [he]
  rw [show (if (false = true) then ((RunResult.blockedForever s1, [s1.readyq.length]) : RunResult × List Nat)
        else
          match sel :: rest with
          | [] => (.pending s1, [s1.readyq.length])
          | sel :: rest =>
            match completePhase w s1 sel with
            | .error e => (.error e, [s1.readyq.length])
            | .ok s2 =>
              let p := runL w fuel s2 rest
              (p.1, s1.readyq.length :: p.2)) =
        (match completePhase w s1 sel with
          | .error e => ((.error e : RunResult), [s1.readyq.length])
          | .ok s2 =>
            let p := runL w fuel s2 rest
            (p.1, s1.readyq.length :: p.2)) from rfl]
  rw [hc]

theorem runL_eq_step (w : World) (fuel : Nat) (s s1 s2 : Sched)
    (sel : SelectOut) (rest : List SelectOut)
    (h0 : ¬s.nrunning = 0) (hr : _run fuel s = .ok (some s1))
    (he : (s1.read_waiting.isEmpty && s1.write_waiting.isEmpty) = false)
    (hc : completePhase w s1 sel = .ok s2) :
    runL w fuel s (sel :: rest) =
      ((runL w fuel s2 rest).1, s1.readyq.length :: (runL w fuel s2 rest).2) := by
  rw [runL, if_neg h0, hr]
  simp only [he]
  rw [show (if (false = true) then ((RunResult.blockedForever s1, [s1.readyq.length]) : RunResult × List Nat)
        else
          match sel :: rest with
          | [] => (.pending s1, [s1.readyq.length])
          | sel :: rest =>
            match completePhase w s1 sel with
            | .error e => (.error e, [s1.readyq.length])
            | .ok s2 =>
              let p := runL w fuel s2 rest
              (p.1, s1.readyq.length :: p.2)) =
        (match completePhase w s1 sel with
          | .error e => ((.error e : RunResult), [s1.readyq.length])
          | .ok s2 =>
            let p := runL w fuel s2 rest
            (p.1, s1.readyq.length :: p.2)) from rfl]
  rw [hc]

theorem completePhase_nodup (w : World) (s : Sched) (sel : SelectOut)
    (s' : Sched) (hn : TablesNodup s) (h : completePhase w s sel = .ok s') :
    TablesNodup s' := by
  rw [completePhase] at h
  rcases h1 : completeFds w true sel.1 s with e | s1 <;> rw [h1] at h
  · simp at h
  · exact completeFds_nodup w false sel.2 s1 s'
      (completeFds_nodup w true sel.1 s s1 hn h1) h

theorem runL_preserve (P : Sched → Prop)
    (h1 : ∀ fuel (s s' : Sched), P s → _run fuel s = .ok (some s') → P s')
    (h2 : ∀ (w : World) (s : Sched) sel (s' : Sched), P s →
      completePhase w s sel = .ok s' → P s') :
    ∀ (w : World) (fuel : Nat) (selects : List SelectOut) (s s' : Sched),
      P s → stateOf (runL w fuel s selects).1 = some s' → P s' := by
  intro w fuel selects
  induction selects with
  | nil =>
    intro s s' hp h
    by_cases hz : s.nrunning = 0
    · rw [runL_eq_done w fuel s [] hz] at h
      simp [stateOf] at h
      subst h; exact hp
    · rcases hr : _run fuel s with e | o
      · rw [runL_eq_error w fuel s [] e hz hr] at h
        simp [stateOf] at h
      · rcases o with _ | s1
        · rw [runL_eq_fuelOut w fuel s [] hz hr] at h
          simp [stateOf] at h
        · have hp1 := h1 fuel s s1 hp hr
          rcases he : (s1.read_waiting.isEmpty && s1.write_waiting.isEmpty) with _ | _
          · rw [runL_eq_pending w fuel s s1 hz hr he] at h
            simp [stateOf] at h
            subst h; exact hp1
          · rw [runL_eq_blocked w fuel s s1 [] hz hr he] at h
            simp [stateOf] at h
            subst h; exact hp1
  | cons sel rest ih =>
    intro s s' hp h
    by_cases hz : s.nrunning = 0
    · rw [runL_eq_done w fuel s (sel :: rest) hz] at h
      simp [stateOf] at h
      subst h; exact hp
    · rcases hr : _run fuel s with e | o
      · rw [runL_eq_error w fuel s (sel :: rest) e hz hr] at h
        simp [stateOf] at h
      · rcases o with _ | s1
        · rw [runL_eq_fuelOut w fuel s (sel :: rest) hz hr] at h
          simp [stateOf] at h
        · have hp1 := h1 fuel s s1 hp hr
          rcases he : (s1.read_waiting.isEmpty && s1.write_waiting.isEmpty) with _ | _
          · rcases hc : completePhase w s1 sel with e | s2
            · rw [runL_eq_cperr w fuel s s1 sel rest e hz hr he hc] at h
              simp [stateOf] at h
            · rw [runL_eq_step w fuel s s1 s2 sel rest hz hr he hc] at h
              exact ih s2 s' (h2 w s1 sel s2 hp1 hc) h
          · rw [runL_eq_blocked w fuel s s1 (sel :: rest) hz hr he] at h
            simp [stateOf] at h
            subst h; exact hp1

theorem runL_log_zero :
    ∀ (w : World) (fuel : Nat) (selects : List SelectOut) (s : Sched) (x : Nat),
      x ∈ (runL w fuel s selects).2 → x = 0 := by
  intro w fuel selects
  induction selects with
  | nil =>
    intro s x hx
    by_cases hz : s.nrunning = 0
    · rw [runL_eq_done w fuel s [] hz] at hx
      simp at hx
    · rcases hr : _run fuel s with e | o
      · rw [runL_eq_error w fuel s [] e hz hr] at hx
        simp at hx
      · rcases o with _ | s1
        · rw [runL_eq_fuelOut w fuel s [] hz hr] at hx
          simp at hx
        · have hq0 : s1.readyq.length = 0 := by
            rw [_run_readyq fuel s s1 hr]
            rfl
          rcases he : (s1.read_waiting.isEmpty && s1.write_waiting.isEmpty) with _ | _
          · rw [runL_eq_pending w fuel s s1 hz hr he] at hx
            simp [hq0] at hx
            exact hx
          · rw [runL_eq_blocked w fuel s s1 [] hz hr he] at hx
            simp [hq0] at hx
            exact hx
  | cons sel rest ih =>
    intro s x hx
    by_cases hz : s.nrunning = 0
    · rw [runL_eq_done w fuel s (sel :: rest) hz] at hx
      simp at hx
    · rcases hr : _run fuel s with e | o
      · rw [runL_eq_error w fuel s (sel :: rest) e hz hr] at hx
        simp at hx
      · rcases o with _ | s1
        · rw [runL_eq_fuelOut w fuel s (sel :: rest) hz hr] at hx
          simp at hx
        · have hq0 : s1.readyq.length = 0 := by
            rw [_run_readyq fuel s s1 hr]
            rfl
          rcases he : (s1.read_waiting.isEmpty && s1.write_waiting.isEmpty) with _ | _
          · rcases hc : completePhase w s1 sel with e | s2
            · rw [runL_eq_cperr w fuel s s1 sel rest e hz hr he hc] at hx
              simp [hq0] at hx
              exact hx
            · rw [runL_eq_step w fuel s s1 s2 sel rest hz hr he hc] at hx
              rcases List.mem_cons.mp hx with h' | h'
              · rw [h', hq0]
              · exact ih s2 x h'
          · rw [runL_eq_blocked w fuel s s1 (sel :: rest) hz hr he] at hx
            simp [hq0] at hx
            exact hx

theorem completePhase_CInv (w : World) (s : Sched) (sel : SelectOut)
    (s' : Sched) (hc : CInv s) (h : completePhase w s sel = .ok s') : CInv s' := by
  have hcnt := completePhase_counters w s sel s' h
  simp only [CInv] at hc ⊢
  rw [hcnt.1, hcnt.2.1, hcnt.2.2]
  exact hc

/-- C9: the `Socket` facade turns `accept()` into a `ConnectEvent` on the
wrapped handle, `recv(n)` into a `ReceiveEvent` carrying `n`, and
`send(buf)` into a `SendEvent` carrying `buf` — none of the three takes the
`World`, so none can perform a syscall — while every non-intercepted
operation is forwarded unchanged to the wrapped raw handle. -/
theorem c9_socket_facade :
    (∀ s : Socket, Socket.accept s = .connectEvent s.sock) ∧
    (∀ (s : Socket) (n : Nat), Socket.recv s n = .receiveEvent s.sock n) ∧
    (∀ (s : Socket) (d : List Nat), Socket.send s d = .sendEvent s.sock d) ∧
    (∀ (w : World) (s : Socket) (op : SockOp),
      Socket.callOp w s op = RawSock.callOp w s.sock op) :=
  ⟨fun _ => rfl, fun _ _ => rfl, fun _ _ => rfl, fun _ _ _ => rfl⟩

/-- C5: a drained task that yields an `Accept` or `Receive` event has the
`(event, resumed-task)` pair stored in the read-interest table keyed by the
event's file descriptor, and one that yields a `Send` event has it stored
in the write-interest table keyed by the event's file descriptor. -/
theorem c5_event_dispatch :
    (∀ (s : Sched) (t : Task) (data : IOResult) (sp : List Gen) (r : RawSock)
       (k : IOResult → Gen),
       collect (t data) = (sp, .yielded (.event (.connectEvent r)) k) →
       drainStep s t data =
         .ok (waiting_for_read (submitSpawned s sp) r.fd (.connectEvent r) k)) ∧
    (∀ (s : Sched) (t : Task) (data : IOResult) (sp : List Gen) (r : RawSock)
       (n : Nat) (k : IOResult → Gen),
       collect (t data) = (sp, .yielded (.event (.receiveEvent r n)) k) →
       drainStep s t data =
         .ok (waiting_for_read (submitSpawned s sp) r.fd (.receiveEvent r n) k)) ∧
    (∀ (s : Sched) (t : Task) (data : IOResult) (sp : List Gen) (r : RawSock)
       (d : List Nat) (k : IOResult → Gen),
       collect (t data) = (sp, .yielded (.event (.sendEvent r d)) k) →
       drainStep s t data =
         .ok (waiting_for_write (submitSpawned s sp) r.fd (.sendEvent r d) k)) ∧
    (∀ (s : Sched) (fd : Nat) (e : BaseEvent) (t : Task),
       (waiting_for_read s fd e t).read_waiting = dictSet s.read_waiting fd (e, t) ∧
       (waiting_for_read s fd e t).write_waiting = s.write_waiting) ∧
    (∀ (s : Sched) (fd : Nat) (e : BaseEvent) (t : Task),
       (waiting_for_write s fd e t).write_waiting = dictSet s.write_waiting fd (e, t) ∧
       (waiting_for_write s fd e t).read_waiting = s.read_waiting) := by
  refine ⟨?_, ?_, ?_, fun _ _ _ _ => ⟨rfl, rfl⟩, fun _ _ _ _ => ⟨rfl, rfl⟩⟩ <;>
    intro s t data sp r
  · intro k h
    simp only [drainStep, h]
    rfl
  · intro n k h
    simp only [drainStep, h]
    rfl
  · intro d k h
    simp only [drainStep, h]
    rfl

/-- C5 witness: draining a task whose first yield is `ReceiveEvent(fd 3, 1)`
registers it in the read table under key 3. -/
theorem c5_witness :
    drainStep initSched demoRecv IOResult.none =
      .ok (waiting_for_read (submitSpawned initSched []) 3
        (.receiveEvent ⟨3⟩ 1) demoK) :=
  c5_event_dispatch.2.1 initSched demoRecv IOResult.none [] ⟨3⟩ 1 demoK rfl

/-- C3: every time control reaches the blocking `select.select` call — the
instrumented log records the ready-queue length at each such moment — the
ready queue is empty, tasks appended during the same drain included
(`_run` loops until the queue, spawned entries and all, is empty). -/
theorem c3_select_only_on_empty_queue (w : World) (fuel : Nat) (s : Sched)
    (selects : List SelectOut) :
    ((runL w fuel s selects).2.all fun x => x == 0) = true := by
  rw [List.all_eq_true]
  intro x hx
  have hz := runL_log_zero w fuel selects s x hx
  simp [hz]

/-- C2: the task counter is incremented exactly once per `submit_task` (and
by nothing else that isn't a task completion), decremented exactly once
when a drained task raises `StopIteration`, and the invariant
"count = number of submitted tasks not yet completed" (`CInv`, stated via
the instrumentation counters) is preserved by the drain loop and by the
whole `run` loop. -/
theorem c2_task_count_invariant :
    (∀ (s : Sched) (t : Task),
       (submit_task s t).nsubmitted = s.nsubmitted + 1 ∧
       (submit_task s t).ncompleted = s.ncompleted ∧
       (submit_task s t).nrunning = s.nrunning + 1) ∧
    (∀ (s : Sched) (t : Task) (data : IOResult) (sp : List Gen) (v : IOResult)
       (s' : Sched), collect (t data) = (sp, .stopped v) →
       drainStep s t data = .ok s' →
       s'.ncompleted = (submitSpawned s sp).ncompleted + 1 ∧
       s'.nrunning = (submitSpawned s sp).nrunning - 1 ∧
       s'.nsubmitted = (submitSpawned s sp).nsubmitted) ∧
    (∀ (fuel : Nat) (s s' : Sched), CInv s → _run fuel s = .ok (some s') →
       CInv s') ∧
    (∀ (w : World) (fuel : Nat) (selects : List SelectOut) (s s' : Sched),
       CInv s → stateOf (runL w fuel s selects).1 = some s' → CInv s') := by
  refine ⟨fun s t => ⟨rfl, rfl, rfl⟩, ?_, _run_CInv, ?_⟩
  · intro s t data sp v s' hcol hd
    simp only [drainStep, hcol] at hd
    cases hd
    exact ⟨rfl, rfl, rfl⟩
  · exact runL_preserve CInv _run_CInv
      (fun w s sel s' hp hc => completePhase_CInv w s sel s' hp hc)

/-- C2 witness: the invariant holds of the one-task demo scheduler and is
carried by `run` to its final state. -/
theorem c2_witness : CInv demoAfterC1 :=
  c2_task_count_invariant.2.2.2 w0 1 [] demoS1 demoAfterC1 (by rfl) (by rfl)

/-- C8: registering a read (resp. write) interest for a descriptor that
already has an entry replaces that entry in place — the new pair is looked
up, the table size is unchanged, every other descriptor's entry is
untouched — and the at-most-one-entry-per-descriptor invariant (no
duplicate keys) is preserved by the whole `run` loop. -/
theorem c8_duplicate_registration :
    (∀ (s : Sched) (fd : Nat) (e : BaseEvent) (t : Task) (p : BaseEvent × Task),
       dictLookup s.read_waiting fd = some p →
       dictLookup (waiting_for_read s fd e t).read_waiting fd = some (e, t) ∧
       (waiting_for_read s fd e t).read_waiting.length = s.read_waiting.length ∧
       ∀ fd' : Nat, fd' ≠ fd →
         dictLookup (waiting_for_read s fd e t).read_waiting fd' =
           dictLookup s.read_waiting fd') ∧
    (∀ (s : Sched) (fd : Nat) (e : BaseEvent) (t : Task) (p : BaseEvent × Task),
       dictLookup s.write_waiting fd = some p →
       dictLookup (waiting_for_write s fd e t).write_waiting fd = some (e, t) ∧
       (waiting_for_write s fd e t).write_waiting.length = s.write_waiting.length ∧
       ∀ fd' : Nat, fd' ≠ fd →
         dictLookup (waiting_for_write s fd e t).write_waiting fd' =
           dictLookup s.write_waiting fd') ∧
    (∀ (w : World) (fuel : Nat) (selects : List SelectOut) (s s' : Sched),
       TablesNodup s → stateOf (runL w fuel s selects).1 = some s' →
       TablesNodup s') := by
  refine ⟨?_, ?_, ?_⟩
  · intro s fd e t p hp
    exact ⟨dictLookup_set_self s.read_waiting fd (e, t),
           dictSet_length s.read_waiting fd (e, t) p hp,
           fun fd' h => dictLookup_set_other s.read_waiting fd fd' (e, t) h⟩
  · intro s fd e t p hp
    exact ⟨dictLookup_set_self s.write_waiting fd (e, t),
           dictSet_length s.write_waiting fd (e, t) p hp,
           fun fd' h => dictLookup_set_other s.write_waiting fd fd' (e, t) h⟩
  · exact runL_preserve TablesNodup _run_nodup
      (fun w s sel s' hp hc => completePhase_nodup w s sel s' hp hc)

/-- C8 witness: re-registering fd 3 (already held by a `ReceiveEvent`) with
a `SendEvent` interest replaces the entry and keeps the table at one
entry. -/
theorem c8_witness :
    dictLookup (waiting_for_read demoWait 3 (.sendEvent ⟨3⟩ []) demoDone).read_waiting 3 =
      some (.sendEvent ⟨3⟩ [], demoDone) ∧
    (waiting_for_read demoWait 3 (.sendEvent ⟨3⟩ []) demoDone).read_waiting.length =
      demoWait.read_waiting.length :=
  ⟨(c8_duplicate_registration.1 demoWait 3 (.sendEvent ⟨3⟩ []) demoDone
      (.receiveEvent ⟨3⟩ 1, demoK) rfl).1,
   (c8_duplicate_registration.1 demoWait 3 (.sendEvent ⟨3⟩ []) demoDone
      (.receiveEvent ⟨3⟩ 1, demoK) rfl).2.1⟩

theorem completeFds_cons_read (w : World) (fd : Nat) (rest : List Nat)
    (s : Sched) :
    completeFds w true (fd :: rest) s =
      match dictPop s.read_waiting fd with
      | none => .error .keyError
      | some (et, tbl2) =>
        match happen_so_smooth w et.1 { s with read_waiting := tbl2 } et.2 with
        | .error i => .error (.ioError i)
        | .ok s'' => completeFds w true rest s'' := rfl

theorem completeFds_cons_write (w : World) (fd : Nat) (rest : List Nat)
    (s : Sched) :
    completeFds w false (fd :: rest) s =
      match dictPop s.write_waiting fd with
      | none => .error .keyError
      | some (et, tbl2) =>
        match happen_so_smooth w et.1 { s with write_waiting := tbl2 } et.2 with
        | .error i => .error (.ioError i)
        | .ok s'' => completeFds w false rest s'' := rfl

/-- C4: for a descriptor reported ready, the completion loop first removes
its `(event, task)` entry from the table it was registered in and then runs
the event's completion step, which appends `(task, result)` to the ready
queue: the result is the `(connection, address)` pair for an Accept, the
received bytes for a Receive — zero bytes (`data = []`) included, as a
normal `.ok` value — and the written-byte count for a Send. -/
theorem c4_completion_results :
    (∀ (w : World) (s : Sched) (fd : Nat) (r : RawSock) (t : Task)
       (tbl' : Table) (c : RawSock) (a : Nat) (rest : List Nat),
       dictPop s.read_waiting fd = some ((.connectEvent r, t), tbl') →
       w.acceptR r.fd = .ok (c, a) →
       completeFds w true (fd :: rest) s =
         completeFds w true rest
           { s with read_waiting := tbl'
                    readyq := s.readyq ++ [(t, .acceptRes c a)] }) ∧
    (∀ (w : World) (s : Sched) (fd : Nat) (r : RawSock) (n : Nat) (t : Task)
       (tbl' : Table) (data : List Nat) (rest : List Nat),
       dictPop s.read_waiting fd = some ((.receiveEvent r n, t), tbl') →
       w.recvR r.fd n = .ok data →
       completeFds w true (fd :: rest) s =
         completeFds w true rest
           { s with read_waiting := tbl'
                    readyq := s.readyq ++ [(t, .recvRes data)] }) ∧
    (∀ (w : World) (s : Sched) (fd : Nat) (r : RawSock) (d : List Nat)
       (t : Task) (tbl' : Table) (n : Nat) (rest : List Nat),
       dictPop s.write_waiting fd = some ((.sendEvent r d, t), tbl') →
       w.sendR r.fd d = .ok n →
       completeFds w false (fd :: rest) s =
         completeFds w false rest
           { s with write_waiting := tbl'
                    readyq := s.readyq ++ [(t, .sendRes n)] }) := by
  refine ⟨?_, ?_, ?_⟩
  · intro w s fd r t tbl' c a rest hp hw
    rw [completeFds_cons_read w fd rest s, hp]
    simp only [happen_so_smooth]
    rw [hw]
    rfl
  · intro w s fd r n t tbl' data rest hp hw
    rw [completeFds_cons_read w fd rest s, hp]
    simp only [happen_so_smooth]
    rw [hw]
    rfl
  · intro w s fd r d t tbl' n rest hp hw
    rw [completeFds_cons_write w fd rest s, hp]
    simp only [happen_so_smooth]
    rw [hw]
    rfl

/-- C4 witness: completing fd 3's `ReceiveEvent` in a world whose `recv`
returns zero bytes removes the entry and re-enqueues the task with the
empty byte string as a normal value. -/
theorem c4_witness :
    completeFds wOk true [3] demoWait =
      completeFds wOk true []
        { demoWait with read_waiting := []
                        readyq := demoWait.readyq ++ [(demoK, .recvRes [])] } :=
  c4_completion_results.2.1 wOk demoWait 3 ⟨3⟩ 1 demoK [] [] [] rfl rfl

/-- C7: a drained task yielding a non-Event value makes `run` abort with
the `RuntimeError` (no per-task isolation), and an error raised by a
completion step's deferred syscall is caught nowhere and likewise
propagates out of `run`. -/
theorem c7_failure_semantics :
    (∀ (w : World) (fuel : Nat) (s : Sched) (t : Task) (data : IOResult)
       (rest : List (Task × IOResult)) (sp : List Gen) (v : Nat)
       (k : IOResult → Gen) (selects : List SelectOut),
       s.nrunning ≠ 0 → s.readyq = (t, data) :: rest →
       collect (t data) = (sp, .yielded (.other v) k) →
       run w (fuel + 1) s selects = .error .unknownEvent) ∧
    (∀ (w : World) (fuel : Nat) (s : Sched) (fd : Nat) (e : BaseEvent)
       (t : Task) (tbl' : Table) (i : Nat) (rest : List SelectOut),
       s.nrunning ≠ 0 → s.readyq = [] →
       dictPop s.read_waiting fd = some ((e, t), tbl') →
       happen_so_smooth w e { s with read_waiting := tbl' } t = .error i →
       run w fuel s ((([fd], []) : SelectOut) :: rest) = .error (.ioError i)) := by
  constructor
  · intro w fuel s t data rest sp v k selects hz hq hcol
    have hds : drainStep { s with readyq := rest } t data = .error .unknownEvent := by
      simp only [drainStep, hcol]
    have hr : _run (fuel + 1) s = .error .unknownEvent := by
      rw [_run_eq_succ fuel s t data rest hq, hds]
    show (runL w (fuel + 1) s selects).1 = _
    rw [runL_eq_error w (fuel + 1) s selects _ hz hr]
  · intro w fuel s fd e t tbl' i rest hz hq hp hh
    have hr : _run fuel s = .ok (some s) := _run_eq_nil fuel s hq
    have hne : s.read_waiting.isEmpty = false := by
      cases hl : s.read_waiting with
      | nil => rw [hl] at hp; simp [dictPop] at hp
      | cons a l => rfl
    have he : (s.read_waiting.isEmpty && s.write_waiting.isEmpty) = false := by
      rw [hne]
      rfl
    have hcp : completePhase w s (([fd], []) : SelectOut) = .error (.ioError i) := by
      have h1 : completeFds w true [fd] s = .error (.ioError i) := by
        rw [completeFds_cons_read w fd [] s, hp]
        simp only
        rw [hh]
      rw [completePhase]
      simp only
      rw [h1]
    show (runL w fuel s (([fd], []) :: rest)).1 = _
    rw [runL_eq_cperr w fuel s s ([fd], []) rest _ hz hr he hcp]

/-- C7 witness: the non-Event yield of `demoBad` aborts the loop with the
`RuntimeError`, and the failing deferred `recv` of `demoWait` under `w0`
escapes `run` as the `OSError`. -/
theorem c7_witness :
    run w0 1 demoSBad [] = .error .unknownEvent ∧
    run w0 1 demoWait [([3], [])] = .error (.ioError 0) :=
  ⟨c7_failure_semantics.1 w0 0 demoSBad demoBad IOResult.none [] [] 42 demoK []
     (by decide) rfl rfl,
   c7_failure_semantics.2 w0 1 demoWait 3 (.receiveEvent ⟨3⟩ 1) demoK [] 0 []
     (by decide) rfl rfl rfl⟩

theorem traceGen_yieldFrom (sub : Gen) (k : IOResult → Gen) :
    ∀ vs : List IOResult,
      traceGen (yieldFrom sub k) vs =
        match traceGen sub vs with
        | (ys, some vr) =>
          (ys ++ (traceGen (k vr.1) vr.2).1, (traceGen (k vr.1) vr.2).2)
        | (ys, none) => (ys, none) := by
  induction sub with
  | ret v =>
    intro vs
    simp [yieldFrom, traceGen]
  | spawn t rest iht ihrest =>
    intro vs
    simpa [yieldFrom, traceGen] using ihrest vs
  | yield y kk ih =>
    intro vs
    cases vs with
    | nil => simp [yieldFrom, traceGen]
    | cons v vs' =>
      show (y :: (traceGen (yieldFrom (kk v) k) vs').1,
            (traceGen (yieldFrom (kk v) k) vs').2) = _
      rw [ih v vs']
      rcases h : traceGen (kk v) vs' with ⟨ys, o⟩
      cases o with
      | none => simp [traceGen, h]
      | some vr => simp [traceGen, h]

/-- C6: delegation (`yield from`) is transparent: whatever the
sub-computation yields under a sequence of resumption values is observed
unchanged through the delegating computation, and when the sub-computation
returns `v`, the delegating call site resumes as `k v` on the remaining
resumption values — so the scheduler cannot distinguish delegated yields
from direct ones. -/
theorem c6_delegation_transparency :
    (∀ (sub : Gen) (k : IOResult → Gen) (vs : List IOResult)
       (ys : List Yielded) (v : IOResult) (rest : List IOResult),
       traceGen sub vs = (ys, some (v, rest)) →
       traceGen (yieldFrom sub k) vs =
         (ys ++ (traceGen (k v) rest).1, (traceGen (k v) rest).2)) ∧
    (∀ (sub : Gen) (k : IOResult → Gen) (vs : List IOResult)
       (ys : List Yielded),
       traceGen sub vs = (ys, none) →
       traceGen (yieldFrom sub k) vs = (ys, none)) := by
  constructor
  · intro sub k vs ys v rest h
    rw [traceGen_yieldFrom sub k vs, h]
  · intro sub k vs ys h
    rw [traceGen_yieldFrom sub k vs, h]

/-- C6 witness: delegating to `demoSub` (which yields one `recv(1)` and
returns the received byte) forwards the yield unchanged and resumes the
delegator with the sub-computation's final value. -/
theorem c6_witness :
    traceGen (yieldFrom demoSub Gen.ret) [IOResult.recvRes [10]] =
      ([Yielded.event (BaseEvent.receiveEvent ⟨5⟩ 1)],
       some (IOResult.recvRes [10], [])) :=
  c6_delegation_transparency.1 demoSub Gen.ret [IOResult.recvRes [10]]
    [Yielded.event (BaseEvent.receiveEvent ⟨5⟩ 1)] (IOResult.recvRes [10]) [] rfl

/-- C1: counterexample. One submitted task completes during the drain
phase, bringing the task count to 0 with both interest tables empty —
the claim says `run()` then returns without blocking again, but the loop
body proceeds unconditionally to `select.select` over two empty tables,
which blocks forever: `run()` never returns. -/
theorem c1_counterexample :
    demoS1.nrunning ≠ 0 ∧
    _run 1 demoS1 = .ok (some demoAfterC1) ∧
    demoAfterC1.nrunning = 0 ∧
    demoAfterC1.read_waiting = [] ∧
    demoAfterC1.write_waiting = [] ∧
    run w0 1 demoS1 [] = .blockedForever demoAfterC1 :=
  ⟨by decide, rfl, rfl, rfl, rfl, rfl⟩

/-- C1 amended: `run()` returns exactly when the task count is zero at the
start of a loop iteration.  When the count reaches zero during a drain
phase, the loop still executes the blocking `select` once more before the
count is re-checked: with both interest tables empty it blocks forever and
`run()` never returns; with leftover interest entries it blocks until one
of those fds is ready, performs that completion, and only then returns. -/
theorem c1_run_returns :
    (∀ (w : World) (fuel : Nat) (s : Sched) (selects : List SelectOut),
       s.nrunning = 0 → run w fuel s selects = .finished s) ∧
    (∀ (w : World) (fuel : Nat) (s s1 : Sched) (selects : List SelectOut),
       s.nrunning ≠ 0 → _run fuel s = .ok (some s1) → s1.nrunning = 0 →
       s1.read_waiting = [] → s1.write_waiting = [] →
       run w fuel s selects = .blockedForever s1) ∧
    (∀ (w : World) (fuel : Nat) (s s1 s2 : Sched) (sel : SelectOut)
       (rest : List SelectOut),
       s.nrunning ≠ 0 → _run fuel s = .ok (some s1) → s1.nrunning = 0 →
       (s1.read_waiting.isEmpty && s1.write_waiting.isEmpty) = false →
       completePhase w s1 sel = .ok s2 →
       run w fuel s (sel :: rest) = .finished s2) := by
  refine ⟨?_, ?_, ?_⟩
  · intro w fuel s selects h
    show (runL w fuel s selects).1 = _
    rw [runL_eq_done w fuel s selects h]
  · intro w fuel s s1 selects hz hr h1 h3 h4
    have he : (s1.read_waiting.isEmpty && s1.write_waiting.isEmpty) = true := by
      rw [h3, h4]
      rfl
    show (runL w fuel s selects).1 = _
    rw [runL_eq_blocked w fuel s s1 selects hz hr he]
  · intro w fuel s s1 s2 sel rest hz hr h1 he hc
    have h2 : s2.nrunning = 0 := by
      rw [(completePhase_counters w s1 sel s2 hc).1, h1]
    show (runL w fuel s (sel :: rest)).1 = _
    rw [runL_eq_step w fuel s s1 s2 sel rest hz hr he hc]
    show (runL w fuel s2 rest).1 = _
    rw [runL_eq_done w fuel s2 rest h2]

/-- C1 witness for the amended statement: the demo drain brings the count
to 0 with empty tables, and `run` ends blocked forever in `select`. -/
theorem c1_witness : run w0 1 demoS1 [] = .blockedForever demoAfterC1 :=
  c1_run_returns.2.1 w0 1 demoS1 demoAfterC1 [] (by decide) rfl rfl rfl rfl

theorem _poll_eq_nil (fuel : Nat) (s : GSched) (h : s._ready = []) :
    _poll fuel s = .ok (some s) := by
  rw [_poll, h]

theorem _poll_eq_zero (s : GSched) (t : Task) (d : IOResult)
    (rest : List (Task × IOResult)) (h : s._ready = (t, d) :: rest) :
    _poll 0 s = .ok none := by
  rw [_poll, h]

theorem _poll_eq_succ (f : Nat) (s : GSched) (t : Task) (d : IOResult)
    (rest : List (Task × IOResult)) (h : s._ready = (t, d) :: rest) :
    _poll (f + 1) s =
      match pollStep { s with _ready := rest } t d with
      | .error e => .error e
      | .ok s' => _poll f s' := by
  rw [_poll, h]

theorem toG_submit (s : Sched) (t : Task) :
    toG (submit_task s t) = (toG s).new t := rfl

theorem toG_add_ready (s : Sched) (t : Task) (d : IOResult) :
    toG (add_ready s t d) = (toG s).add_ready t d := rfl

theorem toG_waiting_for_read (s : Sched) (fd : Nat) (e : BaseEvent) (t : Task) :
    toG (waiting_for_read s fd e t) = (toG s).read_wait fd e t := rfl

theorem toG_waiting_for_write (s : Sched) (fd : Nat) (e : BaseEvent) (t : Task) :
    toG (waiting_for_write s fd e t) = (toG s).write_wait fd e t := rfl

theorem toG_submitSpawned (sp : List Gen) : ∀ s : Sched,
    toG (submitSpawned s sp) = gSubmitSpawned (toG s) sp := by
  induction sp with
  | nil => intro s; rfl
  | cons g tl ih =>
    intro s
    show toG (submitSpawned (submit_task s (fun _ => g)) tl) = _
    rw [ih (submit_task s (fun _ => g)), toG_submit]
    rfl

theorem toG_do_schedule (e : BaseEvent) (s : Sched) (t : Task) :
    toG (do_schedule e s t) = yield_handle e (toG s) t := by
  cases e <;> rfl

theorem toG_drainStep (s : Sched) (t : Task) (d : IOResult) :
    pollStep (toG s) t d = Except.map toG (drainStep s t d) := by
  simp only [pollStep, drainStep]
  rcases hcol : collect (t d) with ⟨sp, out⟩
  cases out with
  | stopped v =>
    simp only [Except.map]
    rw [show toG { submitSpawned s sp with
          nrunning := (submitSpawned s sp).nrunning - 1
          ncompleted := (submitSpawned s sp).ncompleted + 1 } =
        { toG (submitSpawned s sp) with
          _n_tasks := (toG (submitSpawned s sp))._n_tasks - 1 } from rfl]
    rw [toG_submitSpawned sp s]
  | yielded y k =>
    cases y with
    | event e =>
      simp only [Except.map]
      rw [toG_do_schedule e (submitSpawned s sp) k, toG_submitSpawned sp s]
    | other v => rfl

theorem toG_poll (fuel : Nat) : ∀ s : Sched,
    _poll fuel (toG s) = Except.map (Option.map toG) (_run fuel s) := by
  induction fuel with
  | zero =>
    intro s
    rcases hq : s.readyq with _ | ⟨⟨t, d⟩, rest⟩
    · rw [_run_eq_nil 0 s hq, _poll_eq_nil 0 (toG s) hq]
      rfl
    · rw [_run_eq_zero s t d rest hq, _poll_eq_zero (toG s) t d rest hq]
      rfl
  | succ f ih =>
    intro s
    rcases hq : s.readyq with _ | ⟨⟨t, d⟩, rest⟩
    · rw [_run_eq_nil (f + 1) s hq, _poll_eq_nil (f + 1) (toG s) hq]
      rfl
    · rw [_run_eq_succ f s t d rest hq, _poll_eq_succ f (toG s) t d rest hq]
      have hstep : pollStep { toG s with _ready := rest } t d =
          Except.map toG (drainStep { s with readyq := rest } t d) :=
        toG_drainStep { s with readyq := rest } t d
      rw [hstep]
      rcases hd : drainStep { s with readyq := rest } t d with e | s1
      · rfl
      · simp only [Except.map]
        exact ih s1

theorem toG_happen (w : World) (e : BaseEvent) (s : Sched) (t : Task) :
    resume_yield w e (toG s) t = Except.map toG (happen_so_smooth w e s t) := by
  cases e with
  | connectEvent r =>
    simp only [resume_yield, happen_so_smooth]
    rcases hw : w.acceptR r.fd with i | ca <;> rfl
  | receiveEvent r n =>
    simp only [resume_yield, happen_so_smooth]
    rcases hw : w.recvR r.fd n with i | data <;> rfl
  | sendEvent r d =>
    simp only [resume_yield, happen_so_smooth]
    rcases hw : w.sendR r.fd d with i | n <;> rfl

theorem toG_completeFds (w : World) (isRead : Bool) : ∀ (fds : List Nat) (s : Sched),
    gCompleteFds w isRead fds (toG s) = Except.map toG (completeFds w isRead fds s) := by
  intro fds
  induction fds with
  | nil => intro s; rfl
  | cons fd rest ih =>
    intro s
    rw [gCompleteFds, completeFds]
    have htbl : (if isRead then (toG s)._read_wait else (toG s)._write_wait) =
        (if isRead then s.read_waiting else s.write_waiting) := by
      cases isRead <;> rfl
    rw [htbl]
    rcases hp : dictPop (if isRead then s.read_waiting else s.write_waiting) fd
      with _ | ⟨et, tbl'⟩
    · rfl
    · simp only
      have hs1 : (if isRead then { toG s with _read_wait := tbl' }
            else { toG s with _write_wait := tbl' }) =
          toG (if isRead then { s with read_waiting := tbl' }
            else { s with write_waiting := tbl' }) := by
        cases isRead <;> rfl
      rw [hs1, toG_happen w et.1 _ et.2]
      rcases hh : happen_so_smooth w et.1
          (if isRead then { s with read_waiting := tbl' }
            else { s with write_waiting := tbl' }) et.2 with i | s2
      · rfl
      · simp only [Except.map]
        exact ih s2

theorem toG_completePhase (w : World) (s : Sched) (sel : SelectOut) :
    gCompletePhase w (toG s) sel = Except.map toG (completePhase w s sel) := by
  rw [gCompletePhase, completePhase, toG_completeFds w true sel.1 s]
  rcases h1 : completeFds w true sel.1 s with e | s1
  · rfl
  · simp only [Except.map]
    exact toG_completeFds w false sel.2 s1

theorem grun_eq_done (w : World) (fuel : Nat) (s : GSched)
    (selects : List SelectOut) (h : s._n_tasks = 0) :
    grun w fuel s selects = .finished s := by
  rw [grun, if_pos h]

theorem grun_eq_error (w : World) (fuel : Nat) (s : GSched)
    (selects : List SelectOut) (e : RunError) (h0 : ¬s._n_tasks = 0)
    (hr : _poll fuel s = .error e) :
    grun w fuel s selects = .error e := by
  rw [grun, if_neg h0, hr]

theorem grun_eq_fuelOut (w : World) (fuel : Nat) (s : GSched)
    (selects : List SelectOut) (h0 : ¬s._n_tasks = 0)
    (hr : _poll fuel s = .ok none) :
    grun w fuel s selects = .fuelOut := by
  rw [grun, if_neg h0, hr]

theorem grun_eq_blocked (w : World) (fuel : Nat) (s s1 : GSched)
    (selects : List SelectOut) (h0 : ¬s._n_tasks = 0)
    (hr : _poll fuel s = .ok (some s1))
    (he : (s1._read_wait.isEmpty && s1._write_wait.isEmpty) = true) :
    grun w fuel s selects = .blockedForever s1 := by
  rw [grun, if_neg h0, hr]
  simp only [he]
  cases selects <;> rfl

theorem grun_eq_pending (w : World) (fuel : Nat) (s s1 : GSched)
    (h0 : ¬s._n_tasks = 0) (hr : _poll fuel s = .ok (some s1))
    (he : (s1._read_wait.isEmpty && s1._write_wait.isEmpty) = false) :
    grun w fuel s [] = .pending s1 := by
  rw [grun, if_neg h0, hr]
  simp only [he]
  rfl

theorem grun_eq_cperr (w : World) (fuel : Nat) (s s1 : GSched)
    (sel : SelectOut) (rest : List SelectOut) (e : RunError)
    (h0 : ¬s._n_tasks = 0) (hr : _poll fuel s = .ok (some s1))
    (he : (s1._read_wait.isEmpty && s1._write_wait.isEmpty) = false)
    (hc : gCompletePhase w s1 sel = .error e) :
    grun w fuel s (sel :: rest) = .error e := by
  rw [grun, if_neg h0, hr]
  simp only [he]
  rw [show (if (false = true) then (GRunResult.blockedForever s1)
        else
          match sel :: rest with
          | [] => .pending s1
          | sel :: rest =>
            match gCompletePhase w s1 sel with
            | .error e => .error e
            | .ok s2 => grun w fuel s2 rest) =
        (match gCompletePhase w s1 sel with
          | .error e => (.error e : GRunResult)
          | .ok s2 => grun w fuel s2 rest) from rfl]
  rw [hc]

theorem grun_eq_step (w : World) (fuel : Nat) (s s1 s2 : GSched)
    (sel : SelectOut) (rest : List SelectOut)
    (h0 : ¬s._n_tasks = 0) (hr : _poll fuel s = .ok (some s1))
    (he : (s1._read_wait.isEmpty && s1._write_wait.isEmpty) = false)
    (hc : gCompletePhase w s1 sel = .ok s2) :
    grun w fuel s (sel :: rest) = grun w fuel s2 rest := by
  rw [grun, if_neg h0, hr]
  simp only [he]
  rw [show (if (false = true) then (GRunResult.blockedForever s1)
        else
          match sel :: rest with
          | [] => .pending s1
          | sel :: rest =>
            match gCompletePhase w s1 sel with
            | .error e => .error e
            | .ok s2 => grun w fuel s2 rest) =
        (match gCompletePhase w s1 sel with
          | .error e => (.error e : GRunResult)
          | .ok s2 => grun w fuel s2 rest) from rfl]
  rw [hc]

theorem grun_toG (w : World) (fuel : Nat) :
    ∀ (selects : List SelectOut) (s : Sched),
      grun w fuel (toG s) selects = toGRes (runL w fuel s selects).1 := by
  intro selects
  induction selects with
  | nil =>
    intro s
    by_cases hz : s.nrunning = 0
    · rw [runL_eq_done w fuel s [] hz, grun_eq_done w fuel (toG s) [] hz]
      rfl
    · rcases hr : _run fuel s with e | o
      · have hr' : _poll fuel (toG s) = .error e := by
          rw [toG_poll fuel s, hr]
          rfl
        rw [runL_eq_error w fuel s [] e hz hr,
            grun_eq_error w fuel (toG s) [] e hz hr']
        rfl
      · rcases o with _ | s1
        · have hr' : _poll fuel (toG s) = .ok none := by
            rw [toG_poll fuel s, hr]
            rfl
          rw [runL_eq_fuelOut w fuel s [] hz hr,
              grun_eq_fuelOut w fuel (toG s) [] hz hr']
          rfl
        · have hr' : _poll fuel (toG s) = .ok (some (toG s1)) := by
            rw [toG_poll fuel s, hr]
            rfl
          rcases he : (s1.read_waiting.isEmpty && s1.write_waiting.isEmpty)
            with _ | _
          · rw [runL_eq_pending w fuel s s1 hz hr he,
                grun_eq_pending w fuel (toG s) (toG s1) hz hr' he]
            rfl
          · rw [runL_eq_blocked w fuel s s1 [] hz hr he,
                grun_eq_blocked w fuel (toG s) (toG s1) [] hz hr' he]
            rfl
  | cons sel rest ih =>
    intro s
    by_cases hz : s.nrunning = 0
    · rw [runL_eq_done w fuel s (sel :: rest) hz,
          grun_eq_done w fuel (toG s) (sel :: rest) hz]
      rfl
    · rcases hr : _run fuel s with e | o
      · have hr' : _poll fuel (toG s) = .error e := by
          rw [toG_poll fuel s, hr]
          rfl
        rw [runL_eq_error w fuel s (sel :: rest) e hz hr,
            grun_eq_error w fuel (toG s) (sel :: rest) e hz hr']
        rfl
      · rcases o with _ | s1
        · have hr' : _poll fuel (toG s) = .ok none := by
            rw [toG_poll fuel s, hr]
            rfl
          rw [runL_eq_fuelOut w fuel s (sel :: rest) hz hr,
              grun_eq_fuelOut w fuel (toG s) (sel :: rest) hz hr']
          rfl
        · have hr' : _poll fuel (toG s) = .ok (some (toG s1)) := by
            rw [toG_poll fuel s, hr]
            rfl
          rcases he : (s1.read_waiting.isEmpty && s1.write_waiting.isEmpty)
            with _ | _
          · rcases hc : completePhase w s1 sel with e | s2
            · have hc' : gCompletePhase w (toG s1) sel = .error e := by
                rw [toG_completePhase w s1 sel, hc]
                rfl
              rw [runL_eq_cperr w fuel s s1 sel rest e hz hr he hc,
                  grun_eq_cperr w fuel (toG s) (toG s1) sel rest e hz hr' he hc']
              rfl
            · have hc' : gCompletePhase w (toG s1) sel = .ok (toG s2) := by
                rw [toG_completePhase w s1 sel, hc]
                rfl
              rw [runL_eq_step w fuel s s1 s2 sel rest hz hr he hc,
                  grun_eq_step w fuel (toG s) (toG s1) (toG s2) sel rest hz hr' he hc']
              exact ih s2
          · rw [runL_eq_blocked w fuel s s1 (sel :: rest) hz hr he,
                grun_eq_blocked w fuel (toG s) (toG s1) (sel :: rest) hz hr' he]
            rfl

/-- C10: the two schedulers are behaviourally equivalent.  Under the state
correspondence `toG` (same ready queue, same interest tables, same task
count), the primitive operations of `async_echo_server.py`'s `Scheduler`
map to those of `generator_async.py`'s (`submit_task`→`new`,
`add_ready`→`add_ready`, `waiting_for_read`→`read_wait`,
`waiting_for_write`→`write_wait`), the drain loops agree, and `run` yields
corresponding outcomes for every world, fuel, initial state and readiness
schedule. -/
theorem c10_scheduler_equivalence :
    (∀ (s : Sched) (t : Task), toG (submit_task s t) = (toG s).new t) ∧
    (∀ (s : Sched) (t : Task) (d : IOResult),
       toG (add_ready s t d) = (toG s).add_ready t d) ∧
    (∀ (s : Sched) (fd : Nat) (e : BaseEvent) (t : Task),
       toG (waiting_for_read s fd e t) = (toG s).read_wait fd e t) ∧
    (∀ (s : Sched) (fd : Nat) (e : BaseEvent) (t : Task),
       toG (waiting_for_write s fd e t) = (toG s).write_wait fd e t) ∧
    (∀ (fuel : Nat) (s : Sched),
       _poll fuel (toG s) = Except.map (Option.map toG) (_run fuel s)) ∧
    (∀ (w : World) (fuel : Nat) (selects : List SelectOut) (s : Sched),
       grun w fuel (toG s) selects = toGRes (runL w fuel s selects).1) :=
  ⟨toG_submit, toG_add_ready, toG_waiting_for_read, toG_waiting_for_write,
   fun fuel s => toG_poll fuel s,
   fun w fuel selects s => grun_toG w fuel selects s⟩

end AsyncEcho
